import Mathlib

/-!
Verification of the blogicum blog application's view layer
(src/blogicum/blog/views.py, src/blogicum/blog/urls.py) against its
natural-language specification.

The relational records (User, Category, Post, Comment) are embedded as
structures; the database is a structure of lists; each Django view is a
function from the database, the current time and the requesting user to a
response (and, for mutating views, a new database). Timestamps are integers.
The requesting user is `Option Nat`: `none` is the anonymous user, which is
never equal to any record's author.
-/

namespace Blogicum

structure User where
  id : Nat
  username : String
deriving DecidableEq

structure Category where
  id : Nat
  title : String
  slug : String
  is_published : Bool
deriving DecidableEq

structure Post where
  id : Nat
  title : String
  body : String
  author : Nat
  category : Nat
  pub_date : Int
  is_published : Bool
deriving DecidableEq

/-- Modelled from the spec: the `Comment` model itself (models.py is not under
src/). Per the spec a comment carries "text, author reference, parent-post
reference, creation timestamp". -/
structure Comment where
  id : Nat
  author : Nat
  post : Nat
  created_at : Int
  text : String
deriving DecidableEq

structure DB where
  users : List User
  categories : List Category
  posts : List Post
  comments : List Comment
deriving DecidableEq

/-- One HTTP response. `serverError` stands for an uncaught exception
escaping the handler. -/
inductive Response (α : Type) where
  | ok (val : α)
  | notFound
  | redirect (url : String)
  | serverError (msg : String)
deriving DecidableEq

/-- `get_object_or_404(Post, pk=...)`: primary-key lookup. -/
def findPost (db : DB) (pk : Nat) : Option Post :=
  db.posts.find? (fun p => p.id == pk)

/-- `get_object_or_404(Comment, id=...)`: primary-key lookup. -/
def findComment (db : DB) (pk : Nat) : Option Comment :=
  db.comments.find? (fun c => c.id == pk)

/-- `get_object_or_404(User, username=...)`. -/
def findUser (db : DB) (username : String) : Option User :=
  db.users.find? (fun u => u.username == username)

/-- Foreign-key dereference of a post's category. -/
def findCategory (db : DB) (pk : Nat) : Option Category :=
  db.categories.find? (fun c => c.id == pk)

/-- The SQL join condition `category__is_published=True`: the post's category
row exists and its `is_published` flag is set. -/
def categoryPublished (db : DB) (p : Post) : Bool :=
  match findCategory db p.category with
  | some c => c.is_published
  | none => false

/-- The SQL join projection `category__title`. -/
def categoryTitle (db : DB) (p : Post) : Option String :=
  (findCategory db p.category).map Category.title

/-- The `order_by(-pub_date)` relation: newest first. -/
def pubDateGE (p q : Post) : Prop := q.pub_date ≤ p.pub_date

instance : DecidableRel pubDateGE :=
  fun p q => inferInstanceAs (Decidable (q.pub_date ≤ p.pub_date))

def orderByPubDateDesc (l : List Post) : List Post :=
  List.insertionSort pubDateGE l

/-- Ascending creation-time order on comments. -/
def createdLE (a b : Comment) : Prop := a.created_at ≤ b.created_at

instance : DecidableRel createdLE :=
  fun a b => inferInstanceAs (Decidable (a.created_at ≤ b.created_at))

instance : IsTotal Comment createdLE :=
  ⟨fun a b => Int.le_total a.created_at b.created_at⟩

instance : IsTrans Comment createdLE :=
  ⟨fun _ _ _ h1 h2 => le_trans h1 h2⟩

/-- `post_filter()` in views.py: `Post.objects.filter(pub_date__lt=timezone.now(),
is_published=True, category__is_published=True).order_by(-pub_date)`.
Note the strict `__lt` comparison on `pub_date`. -/
def post_filter (db : DB) (now : Int) : List Post :=
  orderByPubDateDesc (db.posts.filter (fun p =>
    decide (p.pub_date < now) && p.is_published && categoryPublished db p))

/-- `BlogListView`: the index. Its queryset is `post_filter()`; the requesting
user is never consulted. -/
def blogListView (db : DB) (now : Int) (_viewer : Option Nat) : List Post :=
  post_filter db now

/-- `ProfileListView.get_queryset`: resolve the username (404 if unknown); the
profile owner sees all their posts, anyone else only the owner's posts passing
`is_published=True, pub_date__lt=now, category__is_published=True`. -/
def profileListView (db : DB) (now : Int) (viewer : Option Nat) (username : String) :
    Response (List Post) :=
  match findUser db username with
  | none => Response.notFound
  | some author =>
    if viewer = some author.id then
      Response.ok (orderByPubDateDesc (db.posts.filter (fun p => p.author == author.id)))
    else
      Response.ok (orderByPubDateDesc (db.posts.filter (fun p =>
        p.author == author.id && p.is_published && decide (p.pub_date < now) &&
        categoryPublished db p)))

/-- `get_object_or_404(Category.objects.filter(is_published=True), slug=...)`. -/
def findPublishedCategory (db : DB) (slug : String) : Option Category :=
  (db.categories.filter Category.is_published).find? (fun c => c.slug == slug)

/-- `CategoryListView.get_queryset`: resolve the slug among published
categories (404 otherwise), then narrow `post_filter()` by
`category__title=<resolved>.title` — a match on the category TITLE, not on the
category row itself. -/
def categoryListView (db : DB) (now : Int) (_viewer : Option Nat) (slug : String) :
    Response (List Post) :=
  match findPublishedCategory db slug with
  | none => Response.notFound
  | some c =>
    Response.ok ((post_filter db now).filter (fun p => categoryTitle db p == some c.title))

/-- `PostDetailView.has_access`: the author always; otherwise the visibility
conjunction, with the non-strict `pub_date <= timezone.now()`. -/
def has_access (db : DB) (now : Int) (viewer : Option Nat) (p : Post) : Bool :=
  if viewer = some p.author then true
  else p.is_published && categoryPublished db p && decide (p.pub_date ≤ now)

/-- `PostDetailView.get_object`: fetch by pk (404 if absent), then raise the
same Http404 when `has_access` fails. -/
def postDetailView (db : DB) (now : Int) (viewer : Option Nat) (post_id : Nat) :
    Response Post :=
  match findPost db post_id with
  | none => Response.notFound
  | some p => if has_access db now viewer p then Response.ok p else Response.notFound

/-- `PostDetailView.get_context_data` renders `self.object.comments`: the
comments whose parent-post is this post. Modelled from the spec: the ordering
comes from the `Comment` model's Meta (models.py is not under src/); the spec
says comments are "Always rendered in creation order under its post". -/
def commentsOf (db : DB) (post_id : Nat) : List Comment :=
  List.insertionSort createdLE (db.comments.filter (fun c => c.post == post_id))

/-- URL reversing for the route named `blog:post_detail`, declared in urls.py
as `posts/<int:post_id>/`: keyword-argument reversing succeeds exactly when the
single pattern parameter `post_id` is bound. -/
def reversePostDetail (kwargs : List (String × Nat)) : Option String :=
  match kwargs with
  | [(k, v)] => if k = "post_id" then some ("/posts/" ++ toString v ++ "/") else none
  | _ => none

/-- Django's `redirect('blog:post_detail', **kwargs)` shortcut: `resolve_url`
tries `reverse`; on `NoReverseMatch` the name contains no slash or dot, so the
exception is re-raised and escapes as a server error. -/
def redirectShortcut {α : Type} (kwargs : List (String × Nat)) : Response α :=
  match reversePostDetail kwargs with
  | some url => Response.redirect url
  | none => Response.serverError "NoReverseMatch"

/-- `request.user.username`, for success URLs. -/
def usernameOf (db : DB) (uid : Nat) : String :=
  match db.users.find? (fun u => u.id == uid) with
  | some u => u.username
  | none => ""

/-- `PostUpdateView`: `dispatch` fetches the post (404 if absent) and, when the
requester is not its author, calls `redirect('blog:post_detail', pk=post_id)`.
Otherwise the form is processed; the form machinery (forms.py is not under
src/) is modelled as an update function applied to the record, followed by the
success redirect `reverse_lazy('blog:post_detail', args=[post_id])` (positional,
so it reverses successfully). -/
def postUpdateView (db : DB) (viewer : Option Nat) (post_id : Nat)
    (upd : Post → Post) : Response Unit × DB :=
  match findPost db post_id with
  | none => (Response.notFound, db)
  | some p =>
    if viewer ≠ some p.author then
      (redirectShortcut [("pk", post_id)], db)
    else
      (Response.redirect ("/posts/" ++ toString post_id ++ "/"),
       { db with posts := db.posts.map (fun q => if q.id == post_id then upd q else q) })

/-- `PostDeleteView`: same guard with `redirect('blog:post_detail', pk=...)`;
on the author path the post is deleted (comments cascade per the spec's
referential-integrity invariant) and the response redirects to the profile. -/
def postDeleteView (db : DB) (viewer : Option Nat) (post_id : Nat) :
    Response Unit × DB :=
  match findPost db post_id with
  | none => (Response.notFound, db)
  | some p =>
    if viewer ≠ some p.author then
      (redirectShortcut [("pk", post_id)], db)
    else
      (Response.redirect ("/profile/" ++ usernameOf db p.author ++ "/"),
       { db with posts := db.posts.filter (fun q => q.id ≠ post_id),
                 comments := db.comments.filter (fun c => c.post ≠ post_id) })

/-- `CommentUpdateView`: fetch the comment (404 if absent); a non-author
requester gets `redirect('blog:post_detail', pk=self.kwargs[post_id])`; the
author edits the `text` field and is redirected to the post detail page. -/
def commentUpdateView (db : DB) (viewer : Option Nat) (post_id comment_id : Nat)
    (newText : String) : Response Unit × DB :=
  match findComment db comment_id with
  | none => (Response.notFound, db)
  | some c =>
    if viewer ≠ some c.author then
      (redirectShortcut [("pk", post_id)], db)
    else
      (Response.redirect ("/posts/" ++ toString post_id ++ "/"),
       { db with comments := db.comments.map (fun d =>
           if d.id == comment_id then { d with text := newText } else d) })

/-- `CommentDeleteView`: same guard with `redirect('blog:post_detail', pk=...)`;
the author path deletes the comment and redirects to the post detail page. -/
def commentDeleteView (db : DB) (viewer : Option Nat) (post_id comment_id : Nat) :
    Response Unit × DB :=
  match findComment db comment_id with
  | none => (Response.notFound, db)
  | some c =>
    if viewer ≠ some c.author then
      (redirectShortcut [("pk", post_id)], db)
    else
      (Response.redirect ("/posts/" ++ toString post_id ++ "/"),
       { db with comments := db.comments.filter (fun d => d.id ≠ comment_id) })

/-- A fresh autoincrement primary key for a new comment. -/
def freshCommentId (db : DB) : Nat :=
  (db.comments.map Comment.id).foldr max 0 + 1

/-- `CommentCreateView`: `dispatch` fetches the parent post first (404 if
absent), then `LoginRequiredMixin` redirects anonymous requesters to login.
Modelled from the spec where models.py/forms.py are missing from src/: the
`CommentsForm` is valid exactly when the text is nonempty, and `form_valid`
"creates a comment bound to the post and to the requester as author". The
success URL reverses `blog:post_detail` with the keyword `post_id`, which
matches the URL pattern. -/
def commentCreateView (db : DB) (now : Int) (viewer : Option Nat) (post_id : Nat)
    (text : String) : Response Unit × DB :=
  match findPost db post_id with
  | none => (Response.notFound, db)
  | some p =>
    match viewer with
    | none => (Response.redirect "/auth/login/", db)
    | some u =>
      if text = "" then (Response.ok (), db)
      else
        (redirectShortcut [("post_id", p.id)],
         { db with comments := db.comments ++
             [⟨freshCommentId db, u, p.id, now, text⟩] })

/-! ### A concrete database used by witnesses and counterexamples -/

def userA : User := ⟨1, "alice"⟩

def userB : User := ⟨2, "bob"⟩

def cat1 : Category := ⟨1, "General", "general", true⟩

def cat2 : Category := ⟨2, "General", "general2", true⟩

def cat3 : Category := ⟨3, "Hidden", "hidden", false⟩

def post1 : Post := ⟨1, "p1", "b1", 1, 1, 50, true⟩

def post2 : Post := ⟨2, "p2", "b2", 1, 1, 50, false⟩

def post3 : Post := ⟨3, "p3", "b3", 1, 2, 50, true⟩

def post4 : Post := ⟨4, "p4", "b4", 1, 3, 50, true⟩

def post5 : Post := ⟨5, "p5", "b5", 1, 1, 100, true⟩

def comment1 : Comment := ⟨1, 1, 1, 60, "hi"⟩

def comment2 : Comment := ⟨2, 2, 1, 70, "yo"⟩

def sampleDB : DB :=
  ⟨[userA, userB], [cat1, cat2, cat3], [post1, post2, post3, post4, post5],
   [comment1, comment2]⟩

/-! ### Helper lemmas -/

theorem mem_orderByPubDateDesc {l : List Post} {p : Post} :
    p ∈ orderByPubDateDesc l ↔ p ∈ l := by
  simp [orderByPubDateDesc]

theorem mem_post_filter (db : DB) (now : Int) (p : Post) :
    p ∈ post_filter db now ↔
      (p ∈ db.posts ∧ p.is_published = true ∧ categoryPublished db p = true ∧
        p.pub_date < now) := by
  simp only [post_filter, mem_orderByPubDateDesc, List.mem_filter,
    Bool.and_eq_true, decide_eq_true_eq]
  tauto

theorem if_resp_eq_ok {α : Type} (b : Bool) (x : α) :
    ((if b = true then Response.ok x else Response.notFound) = Response.ok x ↔
      b = true) := by
  cases b <;> simp

theorem orderedInsert_append_last (c x : Comment) (s : List Comment)
    (hx : createdLE x c) :
    List.orderedInsert createdLE x (s ++ [c]) =
      List.orderedInsert createdLE x s ++ [c] := by
  induction s with
  | nil => simp [List.orderedInsert, hx]
  | cons d s ih =>
    by_cases h : createdLE x d
    · simp [List.orderedInsert, h]
    · simp [List.orderedInsert, h, ih]

theorem insertionSort_append_last (c : Comment) (l : List Comment)
    (h : ∀ x ∈ l, createdLE x c) :
    List.insertionSort createdLE (l ++ [c]) =
      List.insertionSort createdLE l ++ [c] := by
  induction l with
  | nil => simp [List.insertionSort, List.orderedInsert]
  | cons x l ih =>
    simp only [List.cons_append, List.insertionSort, List.append_eq]
    rw [ih (fun y hy => h y (List.mem_cons_of_mem _ hy)),
        orderedInsert_append_last c x _ (h x (List.mem_cons_self _ _))]

theorem postDetailView_some (db : DB) (now : Int) (viewer : Option Nat)
    (pid : Nat) (p : Post) (hp : findPost db pid = some p) :
    postDetailView db now viewer pid =
      if has_access db now viewer p = true then Response.ok p
      else Response.notFound := by
  simp [postDetailView, hp]

theorem has_access_eq_true (db : DB) (now : Int) (viewer : Option Nat) (p : Post)
    (hv : viewer ≠ some p.author) :
    has_access db now viewer p = true ↔
      (p.is_published = true ∧ categoryPublished db p = true ∧ p.pub_date ≤ now) := by
  simp [has_access, hv, Bool.and_eq_true, decide_eq_true_eq, and_assoc]

/-! ### The claims -/

/-- C1: the claim says a non-author update/delete request on a post or comment
is answered with a redirect to the post's detail view and no error. The guard
instead calls `redirect('blog:post_detail', pk=...)` while the URL pattern
(urls.py, `posts/<int:post_id>/`) names its parameter `post_id`, so reversing
raises `NoReverseMatch` and the request dies with a server error; the targeted
record is indeed left unchanged. Evaluated at a concrete failing input: user 2
acting on post 1 and comment 1, both authored by user 1. -/
theorem mutation_guard_raises_serverError :
    postUpdateView sampleDB (some 2) 1 id
      = (Response.serverError "NoReverseMatch", sampleDB)
  ∧ postDeleteView sampleDB (some 2) 1
      = (Response.serverError "NoReverseMatch", sampleDB)
  ∧ commentUpdateView sampleDB (some 2) 1 1 "new"
      = (Response.serverError "NoReverseMatch", sampleDB)
  ∧ commentDeleteView sampleDB (some 2) 1 1
      = (Response.serverError "NoReverseMatch", sampleDB) :=
  ⟨rfl, rfl, rfl, rfl⟩

/-- C2: the post-detail view returns the post to its author unconditionally;
to any other viewer it returns the post exactly when the visibility conjunction
holds (published, category published, `pub_date <= now`), and otherwise
responds with the same generic not-found it uses for a nonexistent post id. -/
theorem postDetail_access (db : DB) (now : Int) (viewer : Option Nat) (pid : Nat) :
    (findPost db pid = none → postDetailView db now viewer pid = Response.notFound)
  ∧ ∀ p, findPost db pid = some p →
      (viewer = some p.author → postDetailView db now viewer pid = Response.ok p)
    ∧ (viewer ≠ some p.author →
        ((postDetailView db now viewer pid = Response.ok p ↔
          (p.is_published = true ∧ categoryPublished db p = true ∧ p.pub_date ≤ now))
       ∧ (¬(p.is_published = true ∧ categoryPublished db p = true ∧ p.pub_date ≤ now) →
          postDetailView db now viewer pid = Response.notFound))) := by
  constructor
  · intro h
    simp [postDetailView, h]
  · intro p hp
    constructor
    · intro hv
      simp [postDetailView, hp, has_access, hv]
    · intro hv
      constructor
      · rw [postDetailView_some db now viewer pid p hp, if_resp_eq_ok,
            has_access_eq_true db now viewer p hv]
      · intro hn
        have hb : has_access db now viewer p = false := by
          rcases Bool.eq_false_or_eq_true (has_access db now viewer p) with h | h
          · exact absurd ((has_access_eq_true db now viewer p hv).mp h) hn
          · exact h
        rw [postDetailView_some db now viewer pid p hp, hb]
        simp

/-- Witness for C2 at a concrete input: non-author viewer 2 is served the
published, visible post 1. -/
theorem postDetail_access_witness :
    postDetailView sampleDB 100 (some 2) 1 = Response.ok post1 :=
  (((postDetail_access sampleDB 100 (some 2) 1).2 post1 rfl).2
    (by decide)).1.mpr (by decide)

/-- C3 counterexample: post2 is unpublished and authored by user 1, yet the
index listing rendered for viewer 1 — its own author — does not contain it,
against the claim that the index includes an unpublished post for its author. -/
theorem index_hides_unpublished_from_author :
    post2.is_published = false ∧ post2.author = 1 ∧ post2 ∈ sampleDB.posts ∧
      post2 ∉ blogListView sampleDB 100 (some 1) := by decide

/-- C3 (amended): a post with `published=false` is excluded from the index
listing for every viewer — its author included; the index queryset never
consults the requesting user. -/
theorem index_excludes_unpublished (db : DB) (now : Int) (viewer : Option Nat)
    (p : Post) (hp : p.is_published = false) :
    p ∉ blogListView db now viewer := by
  intro hmem
  have h := (mem_post_filter db now p).mp (by simpa [blogListView] using hmem)
  simp [hp] at h

/-- Witness for the amended C3 at a concrete input. -/
theorem index_excludes_unpublished_witness :
    post2 ∉ blogListView sampleDB 100 (some 1) :=
  index_excludes_unpublished sampleDB 100 (some 1) post2 rfl

/-- C4 counterexample: post5 is published, in a published category, and its
publish timestamp equals the current time (100), so `pub_date <= now` holds;
the claim says it is therefore visible to a non-author in listings, yet the
index for viewer 2 omits it (the listing filter is the strict `pub_date__lt`),
while the detail view does return it. -/
theorem boundary_post_missing_from_listing :
    post5.is_published = true ∧ categoryPublished sampleDB post5 = true ∧
      post5.pub_date = 100 ∧ post5 ∈ sampleDB.posts ∧ post5.author = 1 ∧
      post5 ∉ blogListView sampleDB 100 (some 2) ∧
      postDetailView sampleDB 100 (some 2) 5 = Response.ok post5 := by decide

/-- C4 (amended): for a non-author viewer, a post is in the index listing
exactly when it is published, its category is published, and its publish
timestamp is strictly before now; the detail view serves it exactly when it is
published, its category is published, and `pub_date <= now`. A post whose
publish timestamp equals the current time is thus served on its detail page
but still excluded from listings until the timestamp passes. -/
theorem visibility_conjunction (db : DB) (now : Int) (viewer : Option Nat)
    (p : Post) (hv : viewer ≠ some p.author) :
    (p ∈ blogListView db now viewer ↔
      (p ∈ db.posts ∧ p.is_published = true ∧ categoryPublished db p = true ∧
        p.pub_date < now))
  ∧ (∀ pid, findPost db pid = some p →
      (postDetailView db now viewer pid = Response.ok p ↔
        (p.is_published = true ∧ categoryPublished db p = true ∧
          p.pub_date ≤ now))) := by
  constructor
  · simpa [blogListView] using mem_post_filter db now p
  · intro pid hp
    rw [postDetailView_some db now viewer pid p hp, if_resp_eq_ok,
        has_access_eq_true db now viewer p hv]

/-- Witness for the amended C4 at a concrete input. -/
theorem visibility_conjunction_witness :
    post1 ∈ blogListView sampleDB 100 (some 2) ∧
      postDetailView sampleDB 100 (some 2) 1 = Response.ok post1 := by
  have h := visibility_conjunction sampleDB 100 (some 2) post1 (by decide)
  exact ⟨h.1.mpr (by decide), (h.2 1 (by decide)).mpr (by decide)⟩

/-- C5: for a resolved profile username, the profile owner is served all of
their posts with no visibility filtering, while any other viewer is served
exactly the owner's posts that are published, in a published category, and
whose publish timestamp has passed. -/
theorem profile_listing_policy (db : DB) (now : Int) (viewer : Option Nat)
    (username : String) (u : User) (hu : findUser db username = some u) :
    (viewer = some u.id →
      ∃ l, profileListView db now viewer username = Response.ok l ∧
        ∀ p, p ∈ l ↔ (p ∈ db.posts ∧ p.author = u.id))
  ∧ (viewer ≠ some u.id →
      ∃ l, profileListView db now viewer username = Response.ok l ∧
        ∀ p, p ∈ l ↔ (p ∈ db.posts ∧ p.author = u.id ∧ p.is_published = true ∧
          p.pub_date < now ∧ categoryPublished db p = true)) := by
  constructor
  · intro hv
    refine ⟨orderByPubDateDesc (db.posts.filter (fun p => p.author == u.id)),
      ?_, ?_⟩
    · simp [profileListView, hu, hv]
    · intro p
      simp [mem_orderByPubDateDesc, List.mem_filter]
  · intro hv
    refine ⟨orderByPubDateDesc (db.posts.filter (fun p =>
        p.author == u.id && p.is_published && decide (p.pub_date < now) &&
        categoryPublished db p)), ?_, ?_⟩
    · simp [profileListView, hu, hv]
    · intro p
      simp only [mem_orderByPubDateDesc, List.mem_filter, Bool.and_eq_true,
        decide_eq_true_eq, beq_iff_eq]
      tauto

/-- Witness for C5 at a concrete input: the owner branch for user alice. -/
theorem profile_listing_policy_witness :
    ∃ l, profileListView sampleDB 100 (some 1) "alice" = Response.ok l ∧
      ∀ p, p ∈ l ↔ (p ∈ sampleDB.posts ∧ p.author = userA.id) :=
  (profile_listing_policy sampleDB 100 (some 1) "alice" userA rfl).1 rfl

/-- C6: creating a comment as authenticated user u on an existing post p with
valid (nonempty) text appends exactly one new comment, authored by u and bound
to p; provided every preexisting comment was created no later than now, the
creation-ordered rendering of p's comments places the new comment after all of
them. -/
theorem comment_creation (db : DB) (now : Int) (u : Nat) (pid : Nat) (p : Post)
    (text : String) (hp : findPost db pid = some p) (ht : ¬ text = "")
    (hmono : ∀ c ∈ db.comments, c.created_at ≤ now) :
    ∃ c, (commentCreateView db now (some u) pid text).2.comments
          = db.comments ++ [c]
      ∧ c.author = u ∧ c.post = p.id ∧ c.created_at = now
      ∧ commentsOf (commentCreateView db now (some u) pid text).2 p.id
          = commentsOf db p.id ++ [c] := by
  have h1 : (commentCreateView db now (some u) pid text).2.comments
      = db.comments ++ [⟨freshCommentId db, u, p.id, now, text⟩] := by
    simp [commentCreateView, hp, ht]
  refine ⟨⟨freshCommentId db, u, p.id, now, text⟩, h1, rfl, rfl, rfl, ?_⟩
  simp only [commentsOf]
  rw [h1, List.filter_append]
  simp only [List.filter_cons, List.filter_nil, beq_self_eq_true, if_true]
  rw [insertionSort_append_last]
  intro x hx
  exact hmono x (List.mem_of_mem_filter hx)

/-- Witness for C6 at a concrete input: user 2 comments on post 1. -/
theorem comment_creation_witness :
    ∃ c, (commentCreateView sampleDB 200 (some 2) 1 "hello").2.comments
          = sampleDB.comments ++ [c]
      ∧ c.author = 2 ∧ c.post = post1.id ∧ c.created_at = 200
      ∧ commentsOf (commentCreateView sampleDB 200 (some 2) 1 "hello").2 post1.id
          = commentsOf sampleDB post1.id ++ [c] :=
  comment_creation sampleDB 200 2 1 post1 "hello" rfl (by decide) (by decide)

/-- C7: a category-listing request whose slug matches no category, and a
profile-listing request whose username matches no user, are both answered with
not-found. -/
theorem unknown_slug_or_username_not_found (db : DB) (now : Int)
    (viewer : Option Nat) (slug username : String)
    (hc : ∀ c ∈ db.categories, ¬ c.slug = slug)
    (hu : ∀ u ∈ db.users, ¬ u.username = username) :
    categoryListView db now viewer slug = Response.notFound
  ∧ profileListView db now viewer username = Response.notFound := by
  have h1 : findPublishedCategory db slug = none := by
    rw [findPublishedCategory, List.find?_eq_none]
    intro c hcf
    simp only [beq_iff_eq]
    exact hc c (List.mem_of_mem_filter hcf)
  have h2 : findUser db username = none := by
    rw [findUser, List.find?_eq_none]
    intro u hu2
    simp only [beq_iff_eq]
    exact hu u hu2
  exact ⟨by simp [categoryListView, h1], by simp [profileListView, h2]⟩

/-- Witness for C7 at a concrete input. -/
theorem unknown_not_found_witness :
    categoryListView sampleDB 100 none "nope" = Response.notFound
  ∧ profileListView sampleDB 100 none "nobody" = Response.notFound :=
  unknown_slug_or_username_not_found sampleDB 100 none "nope" "nobody"
    (by decide) (by decide)

/-- C8: the comments rendered on a post's detail page are exactly the comments
whose parent-post is that post, in ascending creation-time order. -/
theorem detail_comments_in_creation_order (db : DB) (pid : Nat) :
    (∀ c, c ∈ commentsOf db pid ↔ (c ∈ db.comments ∧ c.post = pid))
  ∧ List.Sorted createdLE (commentsOf db pid) := by
  constructor
  · intro c
    simp [commentsOf, List.mem_filter]
  · exact List.sorted_insertionSort createdLE _

/-- C9: a request for the listing of an unpublished category is answered with
not-found for every viewer, rather than with an empty or author-filtered
listing; the resolver only searches among published categories. -/
theorem unpublished_category_not_found (db : DB) (now : Int) (viewer : Option Nat)
    (slug : String)
    (hc : ∀ c ∈ db.categories, c.slug = slug → c.is_published = false) :
    categoryListView db now viewer slug = Response.notFound := by
  have h1 : findPublishedCategory db slug = none := by
    rw [findPublishedCategory, List.find?_eq_none]
    intro c hcf
    simp only [beq_iff_eq]
    intro hs
    have h2 := List.of_mem_filter hcf
    have h3 := hc c (List.mem_of_mem_filter hcf) hs
    simp [h3] at h2
  simp [categoryListView, h1]

/-- Witness for C9 at a concrete input: the unpublished category `hidden`
requested by user 1, the author of post4 which belongs to it. -/
theorem unpublished_category_not_found_witness :
    categoryListView sampleDB 100 (some 1) "hidden" = Response.notFound :=
  unpublished_category_not_found sampleDB 100 (some 1) "hidden" (by decide)

/-- C10: with the slug resolved to a published category c, the category listing
contains exactly the posts passing the public visibility filter whose CATEGORY
TITLE equals c's title — so every visible post of any other published category
sharing c's title is included as well. -/
theorem category_listing_selects_by_title (db : DB) (now : Int)
    (viewer : Option Nat) (slug : String) (c : Category)
    (hc : findPublishedCategory db slug = some c) :
    ∃ l, categoryListView db now viewer slug = Response.ok l
      ∧ (∀ p, p ∈ l ↔ (p ∈ db.posts ∧ p.is_published = true ∧
          categoryPublished db p = true ∧ p.pub_date < now ∧
          categoryTitle db p = some c.title))
      ∧ (∀ p ∈ db.posts, ∀ c2, findCategory db p.category = some c2 →
          c2.is_published = true → c2.title = c.title → p.is_published = true →
          p.pub_date < now → p ∈ l) := by
  have hmem : ∀ p, p ∈ (post_filter db now).filter
        (fun p => categoryTitle db p == some c.title) ↔
      (p ∈ db.posts ∧ p.is_published = true ∧ categoryPublished db p = true ∧
        p.pub_date < now ∧ categoryTitle db p = some c.title) := by
    intro p
    rw [List.mem_filter, mem_post_filter]
    simp only [beq_iff_eq]
    tauto
  refine ⟨(post_filter db now).filter (fun p => categoryTitle db p == some c.title),
    by simp [categoryListView, hc], hmem, ?_⟩
  intro p hp c2 hc2 hcp hct hpub hdate
  refine (hmem p).mpr ⟨hp, hpub, ?_, hdate, ?_⟩
  · simp [categoryPublished, hc2, hcp]
  · simp [categoryTitle, hc2, hct]

/-- Witness for C10 at a concrete input: the slug `general` resolves to cat1,
and post3 — which belongs to the distinct category cat2 carrying the same
title — appears in the listing. -/
theorem category_listing_selects_by_title_witness :
    ∃ l, categoryListView sampleDB 100 none "general" = Response.ok l ∧
      post3 ∈ l := by
  obtain ⟨l, hl, hiff, himp⟩ :=
    category_listing_selects_by_title sampleDB 100 none "general" cat1 rfl
  exact ⟨l, hl, himp post3 (by decide) cat2 rfl (by decide) rfl rfl (by decide)⟩

end Blogicum
